import Mathlib

/-!
Verification of the Pollyn Angular front end (PostGeneration repository).

The components are shallowly embedded: each component's view-state fields
become a Lean structure, each method becomes a pure state transformer, and a
JavaScript expression that would throw a `TypeError` (indexing past the end of
an array and then dereferencing the `undefined` result) is modelled by an
`Option`-returning function yielding `none`.  JavaScript string operations
(`toLowerCase`, `trim`, `includes`, `Array.prototype.join`) are modelled by
executable functions over `String`.
-/

namespace Pollyn

/-! ### JavaScript string primitives -/

/-- `Char.toLower` applied characterwise: model of `String.prototype.toLowerCase`. -/
def jsToLower (s : String) : String :=
  ⟨s.data.map Char.toLower⟩

/-- Model of `String.prototype.trim`: strip whitespace from both ends. -/
def jsTrim (s : String) : String :=
  ⟨((s.data.dropWhile Char.isWhitespace).reverse.dropWhile Char.isWhitespace).reverse⟩

/-- Does `pat` occur at the start of `l`? -/
def jsStartsWith : List Char → List Char → Bool
  | [], _ => true
  | _ :: _, [] => false
  | a :: as, b :: bs => a == b && jsStartsWith as bs

/-- Does `pat` occur as a contiguous run somewhere in `l`? -/
def jsIncludesAux (pat : List Char) : List Char → Bool
  | [] => jsStartsWith pat []
  | b :: bs => jsStartsWith pat (b :: bs) || jsIncludesAux pat bs

/-- Model of `String.prototype.includes`: `pat` is a substring of `s`. -/
def jsIncludes (s pat : String) : Bool :=
  jsIncludesAux pat.data s.data

/-- Model of `Array.prototype.join(sep)`. -/
def jsJoin (sep : String) : List String → String
  | [] => ""
  | [x] => x
  | x :: y :: xs => x ++ sep ++ jsJoin sep (y :: xs)

/-! ### History component (`HistoryComponent`)

Source: the history component file.  Fields `title`, `description`, `date` are
required strings; `caption` and `tags` are optional. -/

structure PostHistory where
  title : String
  description : String
  caption : Option String
  date : String
  tags : Option (List String)
deriving DecidableEq, Repr

namespace History

/-- The array literal `[post.title, post.description, post.caption || '',
...(post.tags || [])]` joined with `' '`, as built inside `applyFilter`. -/
def joinedText (p : PostHistory) : String :=
  jsJoin " " ([p.title, p.description, p.caption.getD ""] ++ p.tags.getD [])

/-- The filter predicate of `applyFilter`: the joined, lowercased field text
contains the (already lowercased and trimmed) query `q` as a substring. -/
def matchesQuery (q : String) (p : PostHistory) : Bool :=
  jsIncludes (jsToLower (joinedText p)) q

/-- Core of `HistoryComponent.applyFilter`: from the raw `searchQuery` and the
`history` array, compute the new `filteredHistory` array. -/
def applyFilterList (searchQuery : String) (history : List PostHistory) :
    List PostHistory :=
  let q := jsTrim (jsToLower searchQuery)
  if q = "" then history else history.filter (matchesQuery q)

/-- View-state of `HistoryComponent`, together with the `postHistory` slot of
`localStorage` (decoded) that `deletePost` rewrites. -/
structure HistoryState where
  history : List PostHistory
  filteredHistory : List PostHistory
  searchQuery : String
  storage : Option (List PostHistory)
deriving DecidableEq, Repr

/-- `HistoryComponent.applyFilter` as a state transformer. -/
def applyFilter (s : HistoryState) : HistoryState :=
  { s with filteredHistory := applyFilterList s.searchQuery s.history }

/-- `HistoryComponent.getPlaceholderHistory`: ten generated sample posts.
`now` stands for `new Date().toISOString()`. -/
def getPlaceholderHistory (now : String) : List PostHistory :=
  (List.range 10).map fun i =>
    { title := "Sample Post " ++ toString (i + 1)
      description := "This is a sample description for post #" ++ toString (i + 1) ++ "."
      caption := some (if i % 2 = 0 then "Example caption text." else "")
      date := now
      tags := some ["Demo", "History", "Tag" ++ toString (i % 5)] }

/-- `HistoryComponent.loadHistory`.  `stored` is `localStorage.getItem('postHistory')`
(`none` = `null`); the empty string is falsy in JavaScript, so it also selects the
placeholder branch; `parseJson` models `JSON.parse`, with `none` for a thrown
`SyntaxError`, which the surrounding `try`/`catch` turns into the placeholder list. -/
def loadHistory (parseJson : String → Option (List PostHistory))
    (stored : Option String) (now : String) : List PostHistory :=
  match stored with
  | none => getPlaceholderHistory now
  | some s =>
    if s = "" then getPlaceholderHistory now
    else
      match parseJson s with
      | some h => h
      | none => getPlaceholderHistory now

/-- JavaScript `Array.prototype.indexOf` under reference equality, modelled with
structural equality: `-1` when absent. -/
def jsIndexOf (l : List PostHistory) (a : PostHistory) : Int :=
  if a ∈ l then (l.indexOf a : Int) else -1

/-- JavaScript `Array.prototype.splice(start, 1)`: a negative `start` counts from
the end (clamped at `0`), a too-large one at `length`; one element is removed at
the resulting position when it exists. -/
def jsSpliceRemove1 (l : List PostHistory) (start : Int) : List PostHistory :=
  let len : Int := l.length
  let actualStart : Int :=
    if start < 0 then (if len + start < 0 then 0 else len + start)
    else if start < len then start else len
  l.eraseIdx actualStart.toNat

/-- `HistoryComponent.viewPost`: reads `filteredHistory[index]` and builds the
alert text from `post.title`; with `index` out of range the element is
`undefined` and the property read throws (`none`). -/
def viewPost (index : Nat) (s : HistoryState) : Option String :=
  match s.filteredHistory.get? index with
  | none => none
  | some post =>
    some ("📜 " ++ post.title ++ "\n\n" ++ post.description ++ "\n\n" ++
      post.caption.getD "")

/-- `HistoryComponent.deletePost`.  `filteredHistory[index]` is read first and
its `title` interpolated into the `confirm` prompt, so an out-of-range `index`
throws before anything else happens (`none`).  `conf` is the value returned by
`confirm`.  On confirmation the post's position in `history` is found with
`indexOf`, one element is spliced out there, the whole list is rewritten to
storage, and the filter is re-applied. -/
def deletePost (index : Nat) (conf : Bool) (s : HistoryState) :
    Option HistoryState :=
  match s.filteredHistory.get? index with
  | none => none
  | some post =>
    if conf then
      let originalIndex := jsIndexOf s.history post
      let newHistory := jsSpliceRemove1 s.history originalIndex
      some (applyFilter { s with history := newHistory, storage := some newHistory })
    else
      some s

end History

/-! ### Discover component (`DiscoverComponent`) -/

structure DiscoverPost where
  title : String
  description : String
  author : String
  likes : Nat
  tags : List String
  image : Option String
deriving DecidableEq, Repr

namespace Discover

structure DiscoverState where
  discoverPosts : List DiscoverPost
deriving DecidableEq, Repr

/-- `DiscoverComponent.likePost`: `this.discoverPosts[index].likes++`.  With
`index` out of range the element is `undefined` and reading `.likes` throws
(`none`); otherwise exactly that post's `likes` field is incremented in place. -/
def likePost (index : Nat) (s : DiscoverState) : Option DiscoverState :=
  match s.discoverPosts.get? index with
  | none => none
  | some p =>
    some ⟨s.discoverPosts.set index { p with likes := p.likes + 1 }⟩

/-- `DiscoverComponent.viewPost`: builds the alert text from
`post.title`/`post.description`; out of range it throws (`none`). -/
def viewPost (index : Nat) (s : DiscoverState) : Option String :=
  match s.discoverPosts.get? index with
  | none => none
  | some post =>
    some ("✨ Viewing: " ++ post.title ++ "\n\n" ++ post.description)

end Discover

/-! ### Dashboard component (`DashboardComponent`) and auth modals -/

namespace Dashboard

/-- View-state of `DashboardComponent` together with the one piece of the DOM
its modal logic mutates: the inline `overflow` style of `document.body`
(`none` = style absent, i.e. after `removeStyle` or never set). -/
structure DashboardState where
  activeIndex : Nat
  isLoggedIn : Bool
  showProfile : Bool
  showLogin : Bool
  showSignup : Bool
  bodyOverflow : Option String
deriving DecidableEq, Repr

/-- `DashboardComponent.updateScrollLock`: sets `overflow: hidden` on the body
while not logged in, removes the style once logged in. -/
def updateScrollLock (s : DashboardState) : DashboardState :=
  if !s.isLoggedIn then { s with bodyOverflow := some "hidden" }
  else { s with bodyOverflow := none }

def toggleProfile (s : DashboardState) : DashboardState :=
  { s with showProfile := !s.showProfile }

def closeProfile (s : DashboardState) : DashboardState :=
  { s with showProfile := false }

def toggleLogin (s : DashboardState) : DashboardState :=
  { s with showLogin := !s.showLogin }

/-- `DashboardComponent.closeLogin`: closes the modal, marks the session as
logged in, and refreshes the scroll lock. -/
def closeLogin (s : DashboardState) : DashboardState :=
  updateScrollLock { s with showLogin := false, isLoggedIn := true }

def toggleSignup (s : DashboardState) : DashboardState :=
  { s with showSignup := !s.showSignup }

/-- `DashboardComponent.closeSignup`: same shape as `closeLogin`. -/
def closeSignup (s : DashboardState) : DashboardState :=
  updateScrollLock { s with showSignup := false, isLoggedIn := true }

/-- `DashboardComponent.handleLogout`: `isLoggedIn = false`, then
`closeProfile()`, then `updateScrollLock()`. -/
def handleLogout (s : DashboardState) : DashboardState :=
  updateScrollLock (closeProfile { s with isLoggedIn := false })

/-- `DashboardComponent.setActive`. -/
def setActive (index : Nat) (s : DashboardState) : DashboardState :=
  { s with activeIndex := index }

/-- Field initializers of `DashboardComponent`, before `ngAfterViewInit`: all
flags `false`, `activeIndex = 0`, body style untouched. -/
def freshState : DashboardState :=
  { activeIndex := 0, isLoggedIn := false, showProfile := false,
    showLogin := false, showSignup := false, bodyOverflow := none }

/-- State right after `ngAfterViewInit`, which ends with `updateScrollLock()`. -/
def initState : DashboardState :=
  updateScrollLock freshState

/-- States of the dashboard component reachable through its public operations
after `ngAfterViewInit`. -/
inductive Reachable : DashboardState → Prop
  | start : Reachable initState
  | toggleProfile {s} : Reachable s → Reachable (toggleProfile s)
  | closeProfile {s} : Reachable s → Reachable (closeProfile s)
  | toggleLogin {s} : Reachable s → Reachable (toggleLogin s)
  | closeLogin {s} : Reachable s → Reachable (closeLogin s)
  | toggleSignup {s} : Reachable s → Reachable (toggleSignup s)
  | closeSignup {s} : Reachable s → Reachable (closeSignup s)
  | handleLogout {s} : Reachable s → Reachable (handleLogout s)
  | setActive {s} (index : Nat) : Reachable s → Reachable (setActive index s)

/-- Any of the three modal flags is up. -/
def modalOpen (s : DashboardState) : Bool :=
  s.showProfile || s.showLogin || s.showSignup

/-- Geometry of a DOM element as far as `updateIndicatorPosition` reads it:
`getBoundingClientRect().top`/`.height`. -/
structure Rect where
  top : Rat
  height : Rat
deriving DecidableEq, Repr

/-- The nav indicator element: only `offsetHeight` is read. -/
structure IndicatorElem where
  offsetHeight : Rat
deriving DecidableEq, Repr

/-- The inline styles `updateIndicatorPosition` writes on the indicator. -/
structure IndicatorStyles where
  transition : String
  top : Rat
  background : String
deriving DecidableEq, Repr

/-- Outcome of a DOM-touching method: it threw, returned without effect, or
wrote these styles. -/
inductive DomResult
  | threw : DomResult
  | noop : DomResult
  | set : IndicatorStyles → DomResult
deriving DecidableEq, Repr

/-- The `colors` array of `updateIndicatorPosition`. -/
def indicatorColors : List String :=
  ["#e18e1c", "#e3911a", "#e1921a", "#e39519", "#e2921a", "#e3911a"]

/-- `DashboardComponent.updateIndicatorPosition`.  The guard
`if (!this.indicator || !this.tabs?.length || !this.navContainer) return`
early-returns when the indicator or container is missing or the tab list is
absent/empty.  Past the guard, `tabs[activeIndex]` can still be `undefined`
when `activeIndex` is out of range, and calling `getBoundingClientRect()` on it
throws. -/
def updateIndicatorPosition (activeIndex : Nat) (indicator : Option IndicatorElem)
    (tabs : List Rect) (navContainer : Option Rect) : DomResult :=
  match indicator, navContainer with
  | some ind, some container =>
    if tabs.length = 0 then .noop
    else
      match tabs.get? activeIndex with
      | none => .threw
      | some tabRect =>
        let centerY := tabRect.top - container.top + tabRect.height / 2
        let finalTop := centerY - ind.offsetHeight / 2
        .set
          { transition := "top 0.35s cubic-bezier(0.23, 1, 0.32, 1), background 0.3s ease"
            top := finalTop
            background := indicatorColors.getD (activeIndex % indicatorColors.length) "" }
  | _, _ => .noop

end Dashboard

/-! ### Auth modal components (`LoginComponent`, `SignupComponent`) -/

namespace Auth

structure LoginState where
  email : String
  password : String
deriving DecidableEq, Repr

/-- `LoginComponent.onLogin`: only `console.log`, no state change. -/
def onLogin (s : LoginState) : LoginState := s

structure SignupState where
  name : String
  email : String
  password : String
deriving DecidableEq, Repr

/-- `SignupComponent.onSignup`: only `console.log`, no state change. -/
def onSignup (s : SignupState) : SignupState := s

end Auth

/-! ### Create component (`CreateComponent`) -/

structure PreviewCard where
  title : String
  description : String
  caption : String
deriving DecidableEq, Repr

namespace Create

/-- The `previewCards` field initializer (never mutated). -/
def previewCards : List PreviewCard :=
  [{ title := "Angular 19 Just Dropped ⚡"
     description := "Explore zoneless change detection and the new signal-based forms API."
     caption := "Check out the new features!" },
   { title := "Mastering TypeScript 6 🚀"
     description := "Type inference just got smarter — refactor for cleaner code."
     caption := "TypeScript 6 is amazing!" },
   { title := "RxJS + Signals Hybrid 🔁"
     description := "Combine signals and observables for ultra-reactive Angular apps."
     caption := "Reactive programming made easier." }]

structure CreateState where
  currentCardIndex : Int
  selectedPostCount : Nat
deriving DecidableEq, Repr

/-- `CreateComponent.nextCard`: `(i + 1) % previewCards.length`, with the
JavaScript remainder operator (truncating, `Int.tmod`). -/
def nextCard (s : CreateState) : CreateState :=
  { s with currentCardIndex :=
      (s.currentCardIndex + 1).tmod (previewCards.length : Int) }

/-- `CreateComponent.prevCard`: `(i - 1 + previewCards.length) % previewCards.length`. -/
def prevCard (s : CreateState) : CreateState :=
  { s with currentCardIndex :=
      Int.tmod (s.currentCardIndex - 1 + (previewCards.length : Int)) (previewCards.length : Int) }

end Create

/-! ### Spec-side definition used to compare the spec's description of the
filter with the implementation -/

/-- The spec's reading of the filter: at least one *individual* field — title,
description, caption, or a single tag — contains the term case-insensitively. -/
def specFieldMatches (q : String) (p : PostHistory) : Bool :=
  let ql := jsToLower q
  jsIncludes (jsToLower p.title) ql || jsIncludes (jsToLower p.description) ql ||
    jsIncludes (jsToLower (p.caption.getD "")) ql ||
    (p.tags.getD []).any fun t => jsIncludes (jsToLower t) ql

/-! ### General list lemmas used below -/

theorem filter_erase_comm {α : Type} [DecidableEq α] (m : α → Bool) (a : α)
    (ha : m a = true) : ∀ l : List α, (l.erase a).filter m = (l.filter m).erase a := by
  intro l
  induction l with
  | nil => simp
  | cons b bs ih =>
    by_cases hb : b = a
    · subst hb
      simp [List.erase_cons, ha, List.filter_cons]
    · by_cases hmb : m b = true <;>
        simp [List.erase_cons, hb, hmb, ih, List.filter_cons]

theorem indexOf_getElem_of_nodup {α : Type} [DecidableEq α] (l : List α)
    (hnd : l.Nodup) (i : Nat) (hi : i < l.length) : l.indexOf l[i] = i := by
  have hmem : l[i] ∈ l := List.getElem_mem hi
  have hlt : l.indexOf l[i] < l.length := List.indexOf_lt_length.mpr hmem
  exact hnd.getElem_inj_iff.mp (List.getElem_indexOf hlt)

/-- An empty query matches every post (`includes('')` is always `true`). -/
theorem matches_empty (x : PostHistory) : History.matchesQuery "" x = true := by
  unfold History.matchesQuery jsIncludes jsIncludesAux
  cases (jsToLower (History.joinedText x)).data with
  | nil => rfl
  | cons b bs => simp [jsStartsWith]

/-- Both branches of `applyFilterList` are the filter by `matchesQuery`. -/
theorem apply_filter_as_filter (q : String) (l : List PostHistory) :
    History.applyFilterList q l =
      l.filter (History.matchesQuery (jsTrim (jsToLower q))) := by
  unfold History.applyFilterList
  by_cases hq : jsTrim (jsToLower q) = ""
  · rw [if_pos hq, hq]
    exact (List.filter_eq_self.mpr fun x _ => matches_empty x).symm
  · rw [if_neg hq]

/-- Splicing one element out at `indexOf` of a present element is `erase`. -/
theorem splice_at_indexOf (l : List PostHistory) (p : PostHistory) (hp : p ∈ l) :
    History.jsSpliceRemove1 l (History.jsIndexOf l p) = l.erase p := by
  have h1 : l.indexOf p < l.length := List.indexOf_lt_length.mpr hp
  have h2 : ¬((l.indexOf p : Int) < 0) := by omega
  have h3 : (l.indexOf p : Int) < (l.length : Int) := by exact_mod_cast h1
  simp only [History.jsIndexOf, History.jsSpliceRemove1, if_pos hp, if_neg h2, if_pos h3,
    Int.toNat_natCast]
  exact List.eraseIdx_indexOf_eq_erase p l

/-! ### Claim theorems -/

/-- C1 (counterexample): `applyFilter` matches the query against the fields
*joined with spaces*, so the term `"b c"` spans the boundary between title
`"ab"` and description `"cd"` and the post is kept, although no individual
field contains the term — the spec's per-field reading would exclude it. -/
theorem apply_filter_cross_field_counterexample :
    History.applyFilterList "b c"
        [{ title := "ab", description := "cd", caption := none, date := "d", tags := none }] =
      [{ title := "ab", description := "cd", caption := none, date := "d", tags := none }] ∧
    specFieldMatches "b c"
        { title := "ab", description := "cd", caption := none, date := "d", tags := none } =
      false := by
  decide

/-- C1 (amended): `applyFilter` leaves `history` and `searchQuery` untouched;
when the lowercased, trimmed query is empty, `filteredHistory` becomes the full
history list; otherwise it becomes the order-preserving sublist of exactly
those posts whose fields, joined with single spaces and lowercased, contain the
query as a substring. -/
theorem apply_filter_characterization (s : History.HistoryState) :
    (History.applyFilter s).history = s.history ∧
    (History.applyFilter s).searchQuery = s.searchQuery ∧
    (jsTrim (jsToLower s.searchQuery) = "" →
      (History.applyFilter s).filteredHistory = s.history) ∧
    (jsTrim (jsToLower s.searchQuery) ≠ "" →
      (History.applyFilter s).filteredHistory.Sublist s.history ∧
      ∀ p, p ∈ (History.applyFilter s).filteredHistory ↔
        p ∈ s.history ∧
          History.matchesQuery (jsTrim (jsToLower s.searchQuery)) p = true) := by
  unfold History.applyFilter History.applyFilterList
  by_cases h : jsTrim (jsToLower s.searchQuery) = "" <;>
    simp [h, List.filter_sublist, List.mem_filter]

/-- C1 (witness): the characterization applied to a concrete state with a
non-empty query. -/
theorem apply_filter_characterization_witness :
    (History.applyFilter
        ⟨[{ title := "ab", description := "cd", caption := none, date := "d", tags := none }],
          [], "zz", none⟩).filteredHistory.Sublist
      [{ title := "ab", description := "cd", caption := none, date := "d", tags := none }] :=
  ((apply_filter_characterization _).2.2.2 (by decide)).1

/-- C2: when the stored value is absent (`null`) or fails to parse as JSON,
`loadHistory` yields the generated placeholder list, which has exactly ten
entries. -/
theorem load_history_fallback (parseJson : String → Option (List PostHistory))
    (stored : Option String) (now : String)
    (h : stored = none ∨ ∃ s, stored = some s ∧ parseJson s = none) :
    History.loadHistory parseJson stored now = History.getPlaceholderHistory now ∧
    (History.loadHistory parseJson stored now).length = 10 := by
  have hlen : (History.getPlaceholderHistory now).length = 10 := by
    simp [History.getPlaceholderHistory]
  rcases h with h | ⟨s, rfl, hp⟩
  · subst h
    exact ⟨rfl, hlen⟩
  · by_cases hs : s = "" <;> simp [History.loadHistory, hs, hp, hlen]

/-- C2 (witness): absent storage yields the ten placeholders. -/
theorem load_history_fallback_witness :
    History.loadHistory (fun _ => none) none "2026-01-01T00:00:00.000Z" =
      History.getPlaceholderHistory "2026-01-01T00:00:00.000Z" ∧
    (History.loadHistory (fun _ => none) none "2026-01-01T00:00:00.000Z").length = 10 :=
  load_history_fallback (fun _ => none) none "2026-01-01T00:00:00.000Z" (Or.inl rfl)

/-- C5 (counterexample): `DiscoverComponent.likePost` performs an unguarded
indexed access; on an empty feed it dereferences `undefined` and throws. -/
theorem like_post_throws_counterexample :
    Discover.likePost 0 ⟨[]⟩ = none := by
  decide

/-- C5 (amended): `updateIndicatorPosition` does early-return when the
indicator or container element is missing or the tab list is empty, but
`likePost` and `viewPost` on the discover feed and `viewPost` and `deletePost`
on the history component access their collections unguarded and throw on an
out-of-range index. -/
theorem guarded_and_unguarded_ops :
    (∀ (activeIndex : Nat) (ind : Option Dashboard.IndicatorElem)
        (tabs : List Dashboard.Rect) (nav : Option Dashboard.Rect),
      ind = none ∨ tabs = [] ∨ nav = none →
        Dashboard.updateIndicatorPosition activeIndex ind tabs nav =
          Dashboard.DomResult.noop) ∧
    (∀ (i : Nat) (s : Discover.DiscoverState),
      s.discoverPosts.length ≤ i → Discover.likePost i s = none) ∧
    (∀ (i : Nat) (s : Discover.DiscoverState),
      s.discoverPosts.length ≤ i → Discover.viewPost i s = none) ∧
    (∀ (i : Nat) (s : History.HistoryState),
      s.filteredHistory.length ≤ i → History.viewPost i s = none) ∧
    (∀ (i : Nat) (conf : Bool) (s : History.HistoryState),
      s.filteredHistory.length ≤ i → History.deletePost i conf s = none) := by
  refine ⟨?_, ?_, ?_, ?_, ?_⟩
  · rintro ai ind tabs nav (rfl | rfl | rfl)
    · simp [Dashboard.updateIndicatorPosition]
    · cases ind <;> cases nav <;> simp [Dashboard.updateIndicatorPosition]
    · cases ind <;> simp [Dashboard.updateIndicatorPosition]
  · intro i s h
    simp [Discover.likePost, List.get?_eq_getElem?, List.getElem?_eq_none h]
  · intro i s h
    simp [Discover.viewPost, List.get?_eq_getElem?, List.getElem?_eq_none h]
  · intro i s h
    simp [History.viewPost, List.get?_eq_getElem?, List.getElem?_eq_none h]
  · intro i conf s h
    simp [History.deletePost, List.get?_eq_getElem?, List.getElem?_eq_none h]

/-- C5 (witness): the five clauses at concrete inputs. -/
theorem guarded_and_unguarded_ops_witness :
    Dashboard.updateIndicatorPosition 0 none [] none = Dashboard.DomResult.noop ∧
    Discover.likePost 2 ⟨[]⟩ = none ∧
    Discover.viewPost 2 ⟨[]⟩ = none ∧
    History.viewPost 2 ⟨[], [], "", none⟩ = none ∧
    History.deletePost 4 false ⟨[], [], "", none⟩ = none :=
  ⟨guarded_and_unguarded_ops.1 0 none [] none (Or.inl rfl),
   guarded_and_unguarded_ops.2.1 2 ⟨[]⟩ (by decide),
   guarded_and_unguarded_ops.2.2.1 2 ⟨[]⟩ (by decide),
   guarded_and_unguarded_ops.2.2.2.1 2 ⟨[], [], "", none⟩ (by decide),
   guarded_and_unguarded_ops.2.2.2.2 4 false ⟨[], [], "", none⟩ (by decide)⟩

/-- C6: with `index` in bounds, `likePost` increments exactly that post's
like counter by one; every other post, and every other field of the liked
post, is unchanged. -/
theorem like_post_increments (s : Discover.DiscoverState) (i : Nat)
    (hi : i < s.discoverPosts.length) :
    ∃ t, Discover.likePost i s = some t ∧
      t.discoverPosts.length = s.discoverPosts.length ∧
      (∀ j, j ≠ i → t.discoverPosts[j]? = s.discoverPosts[j]?) ∧
      ∃ p p', s.discoverPosts[i]? = some p ∧ t.discoverPosts[i]? = some p' ∧
        p'.likes = p.likes + 1 ∧ p'.title = p.title ∧
        p'.description = p.description ∧ p'.author = p.author ∧
        p'.tags = p.tags ∧ p'.image = p.image := by
  refine ⟨⟨s.discoverPosts.set i
      { s.discoverPosts[i] with likes := s.discoverPosts[i].likes + 1 }⟩, ?_, ?_, ?_, ?_⟩
  · simp [Discover.likePost, List.get?_eq_getElem?, List.getElem?_eq_getElem hi]
  · simp
  · intro j hj
    exact List.getElem?_set_ne (fun h => hj h.symm)
  · refine ⟨s.discoverPosts[i],
      { s.discoverPosts[i] with likes := s.discoverPosts[i].likes + 1 },
      List.getElem?_eq_getElem hi, ?_, rfl, rfl, rfl, rfl, rfl, rfl⟩
    simp [List.getElem?_set_self, hi]

/-- C6 (witness): liking the only post of a one-post feed. -/
theorem like_post_increments_witness :
    ∃ t, Discover.likePost 0
        (⟨[⟨"a", "d", "u", 3, [], none⟩]⟩ : Discover.DiscoverState) = some t ∧
      t.discoverPosts.length = 1 ∧
      ∃ p p', (⟨[⟨"a", "d", "u", 3, [], none⟩]⟩ :
          Discover.DiscoverState).discoverPosts[(0 : Nat)]? = some p ∧
        t.discoverPosts[(0 : Nat)]? = some p' ∧ p'.likes = p.likes + 1 := by
  obtain ⟨t, h1, h2, -, p, p', hp, hp', hlikes, -⟩ :=
    like_post_increments ⟨[⟨"a", "d", "u", 3, [], none⟩]⟩ 0 (by decide)
  exact ⟨t, h1, by simpa using h2, p, p', hp, hp', hlikes⟩

/-- C7: each modal toggle flips only its own flag, so applying it twice
restores the flag to its original value, from any state. -/
theorem toggle_twice_restores_flags (s : Dashboard.DashboardState) :
    (Dashboard.toggleProfile (Dashboard.toggleProfile s)).showProfile = s.showProfile ∧
    (Dashboard.toggleLogin (Dashboard.toggleLogin s)).showLogin = s.showLogin ∧
    (Dashboard.toggleSignup (Dashboard.toggleSignup s)).showSignup = s.showSignup := by
  simp [Dashboard.toggleProfile, Dashboard.toggleLogin, Dashboard.toggleSignup]

/-- C8: `closeLogin` and `closeSignup` unconditionally mark the session logged
in and remove the body scroll lock, from any state; the auth modal submit
handlers only log and change no view-state. -/
theorem close_login_signup_unconditional (s : Dashboard.DashboardState) :
    (Dashboard.closeLogin s).isLoggedIn = true ∧
    (Dashboard.closeLogin s).bodyOverflow = none ∧
    (Dashboard.closeSignup s).isLoggedIn = true ∧
    (Dashboard.closeSignup s).bodyOverflow = none ∧
    (∀ l : Auth.LoginState, Auth.onLogin l = l) ∧
    (∀ g : Auth.SignupState, Auth.onSignup g = g) := by
  simp [Dashboard.closeLogin, Dashboard.closeSignup, Dashboard.updateScrollLock,
    Auth.onLogin, Auth.onSignup]

/-- C9 (counterexample): the claim predicts that an out-of-bounds confirmed
delete removes the *last* entry; in fact `deletePost` reads
`filteredHistory[index].title` for the confirm prompt first, so it throws
before touching the list, and no state with the last entry removed is
produced. -/
theorem delete_post_oob_counterexample :
    History.deletePost 5 true
        ⟨[⟨"a", "x", none, "d", none⟩, ⟨"b", "y", none, "d", none⟩],
          [⟨"a", "x", none, "d", none⟩, ⟨"b", "y", none, "d", none⟩], "", none⟩ = none ∧
    ¬ ∃ t, History.deletePost 5 true
        ⟨[⟨"a", "x", none, "d", none⟩, ⟨"b", "y", none, "d", none⟩],
          [⟨"a", "x", none, "d", none⟩, ⟨"b", "y", none, "d", none⟩], "", none⟩ = some t ∧
        t.history = [(⟨"a", "x", none, "d", none⟩ : PostHistory)] := by
  have h : History.deletePost 5 true
      ⟨[⟨"a", "x", none, "d", none⟩, ⟨"b", "y", none, "d", none⟩],
        [⟨"a", "x", none, "d", none⟩, ⟨"b", "y", none, "d", none⟩], "", none⟩ = none := by
    decide
  exact ⟨h, by simp [h]⟩

/-- C9 (amended): `deletePost` with an index outside the filtered view throws
(while building the confirmation prompt) whatever the confirm outcome would
be, leaving history, view, and storage untouched. -/
theorem delete_post_oob_throws (s : History.HistoryState) (i : Nat) (conf : Bool)
    (h : s.filteredHistory.length ≤ i) :
    History.deletePost i conf s = none := by
  simp [History.deletePost, List.get?_eq_getElem?, List.getElem?_eq_none h]

/-- C9 (witness): the amended behaviour on a concrete state. -/
theorem delete_post_oob_throws_witness :
    History.deletePost 3 true ⟨[], [], "", none⟩ = none :=
  delete_post_oob_throws ⟨[], [], "", none⟩ 3 true (by decide)

/-- C4 (counterexample): right after `ngAfterViewInit` no modal is open, yet
the body overflow is `hidden` — the lock tracks `isLoggedIn`, not modal
visibility. -/
theorem scroll_lock_modal_counterexample :
    Dashboard.Reachable Dashboard.initState ∧
    Dashboard.modalOpen Dashboard.initState = false ∧
    Dashboard.initState.bodyOverflow = some "hidden" :=
  ⟨Dashboard.Reachable.start, by decide, by decide⟩

/-- C4 (amended): in every reachable dashboard state, the body overflow style
is `hidden` exactly while `isLoggedIn` is false; modal visibility plays no
direct role. -/
theorem scroll_lock_iff_not_logged_in (s : Dashboard.DashboardState)
    (h : Dashboard.Reachable s) :
    s.bodyOverflow = some "hidden" ↔ s.isLoggedIn = false := by
  induction h with
  | start => decide
  | toggleProfile _ ih => simpa [Dashboard.toggleProfile] using ih
  | closeProfile _ ih => simpa [Dashboard.closeProfile] using ih
  | toggleLogin _ ih => simpa [Dashboard.toggleLogin] using ih
  | closeLogin _ _ => simp [Dashboard.closeLogin, Dashboard.updateScrollLock]
  | toggleSignup _ ih => simpa [Dashboard.toggleSignup] using ih
  | closeSignup _ _ => simp [Dashboard.closeSignup, Dashboard.updateScrollLock]
  | handleLogout _ _ =>
    simp [Dashboard.handleLogout, Dashboard.closeProfile, Dashboard.updateScrollLock]
  | setActive index _ ih => simpa [Dashboard.setActive] using ih

/-- C4 (witness): the amended invariant at the initial reachable state. -/
theorem scroll_lock_iff_not_logged_in_witness :
    Dashboard.initState.bodyOverflow = some "hidden" ↔
      Dashboard.initState.isLoggedIn = false :=
  scroll_lock_iff_not_logged_in Dashboard.initState Dashboard.Reachable.start

/-- C3: in a state whose filtered view is the filter of the current query over
a duplicate-free history (value-level distinctness models JavaScript object
identity), a confirmed `deletePost` at an in-bounds index of the filtered view
removes exactly that post: the history loses exactly the matching entry (at
its original position), its length drops by one, the filtered view loses
exactly position `index`, and the whole new history is rewritten to storage. -/
theorem delete_post_removes_selected (s : History.HistoryState) (i : Nat)
    (hinv : s.filteredHistory = History.applyFilterList s.searchQuery s.history)
    (hnd : s.history.Nodup)
    (hi : i < s.filteredHistory.length) :
    ∃ t, History.deletePost i true s = some t ∧
      ∃ j, s.history[j]? = s.filteredHistory[i]? ∧
        t.history = s.history.eraseIdx j ∧
        t.history.length = s.history.length - 1 ∧
        t.filteredHistory = s.filteredHistory.eraseIdx i ∧
        t.storage = some t.history ∧
        t.searchQuery = s.searchQuery := by
  have hp : s.filteredHistory[i]? = some s.filteredHistory[i] :=
    List.getElem?_eq_getElem hi
  have pmem_f : s.filteredHistory[i] ∈ s.filteredHistory := List.getElem_mem hi
  have hfilter : s.filteredHistory =
      s.history.filter (History.matchesQuery (jsTrim (jsToLower s.searchQuery))) := by
    rw [hinv, apply_filter_as_filter]
  obtain ⟨pmem, hmp⟩ := List.mem_filter.mp (by rw [← hfilter]; exact pmem_f)
  have hnd_f : s.filteredHistory.Nodup := by
    rw [hfilter]
    exact List.Nodup.sublist (List.filter_sublist _) hnd
  have hstep : History.deletePost i true s =
      some (History.applyFilter
        { s with history := s.history.erase s.filteredHistory[i],
                 storage := some (s.history.erase s.filteredHistory[i]) }) := by
    unfold History.deletePost
    rw [List.get?_eq_getElem?, hp]
    simp [splice_at_indexOf s.history s.filteredHistory[i] pmem]
  refine ⟨_, hstep, s.history.indexOf s.filteredHistory[i], ?_, ?_, ?_, ?_, rfl, rfl⟩
  · rw [List.getElem?_indexOf pmem, hp]
  · exact (List.eraseIdx_indexOf_eq_erase s.filteredHistory[i] s.history).symm
  · simp [History.applyFilter, List.length_erase_of_mem pmem,
      List.length_eraseIdx, List.indexOf_lt_length.mpr pmem,
      List.eraseIdx_indexOf_eq_erase]
  · show History.applyFilterList s.searchQuery (s.history.erase s.filteredHistory[i]) =
      s.filteredHistory.eraseIdx i
    rw [apply_filter_as_filter, filter_erase_comm _ _ hmp, ← hfilter]
    have hidx : s.filteredHistory.indexOf s.filteredHistory[i] = i :=
      indexOf_getElem_of_nodup s.filteredHistory hnd_f i hi
    conv_rhs => rw [← hidx]
    exact (List.eraseIdx_indexOf_eq_erase _ _).symm

/-- C3 (witness): delete the first of two distinct posts with an empty query. -/
theorem delete_post_removes_selected_witness :
    ∃ t, History.deletePost 0 true
        ⟨[⟨"a", "x", none, "d", none⟩, ⟨"b", "y", none, "d", none⟩],
          [⟨"a", "x", none, "d", none⟩, ⟨"b", "y", none, "d", none⟩], "", none⟩ = some t ∧
      ∃ j, [(⟨"a", "x", none, "d", none⟩ : PostHistory),
            ⟨"b", "y", none, "d", none⟩][j]? =
          [(⟨"a", "x", none, "d", none⟩ : PostHistory),
            ⟨"b", "y", none, "d", none⟩][(0 : Nat)]? ∧
        t.history = [(⟨"a", "x", none, "d", none⟩ : PostHistory),
            ⟨"b", "y", none, "d", none⟩].eraseIdx j ∧
        t.history.length = 1 ∧
        t.filteredHistory = [(⟨"a", "x", none, "d", none⟩ : PostHistory),
            ⟨"b", "y", none, "d", none⟩].eraseIdx 0 ∧
        t.storage = some t.history ∧
        t.searchQuery = "" := by
  obtain ⟨t, h1, j, h2, h3, h4, h5, h6, h7⟩ :=
    delete_post_removes_selected
      ⟨[⟨"a", "x", none, "d", none⟩, ⟨"b", "y", none, "d", none⟩],
        [⟨"a", "x", none, "d", none⟩, ⟨"b", "y", none, "d", none⟩], "", none⟩ 0
      (by decide) (by decide) (by decide)
  exact ⟨t, h1, j, h2, h3, h4, h5, h6, h7⟩

/-- C10: starting from an index in `[0, previewCards.length)`, `nextCard` and
`prevCard` stay in range and are mutually inverse. -/
theorem card_navigation_inverse (s : Create.CreateState)
    (h0 : 0 ≤ s.currentCardIndex)
    (h3 : s.currentCardIndex < (Create.previewCards.length : Int)) :
    (0 ≤ (Create.nextCard s).currentCardIndex ∧
      (Create.nextCard s).currentCardIndex < (Create.previewCards.length : Int)) ∧
    (0 ≤ (Create.prevCard s).currentCardIndex ∧
      (Create.prevCard s).currentCardIndex < (Create.previewCards.length : Int)) ∧
    (Create.prevCard (Create.nextCard s)).currentCardIndex = s.currentCardIndex ∧
    (Create.nextCard (Create.prevCard s)).currentCardIndex = s.currentCardIndex := by
  have hlen : Create.previewCards.length = 3 := rfl
  rw [hlen] at h3 ⊢
  have hi : s.currentCardIndex = 0 ∨ s.currentCardIndex = 1 ∨ s.currentCardIndex = 2 := by
    omega
  rcases hi with h | h | h <;>
    simp [Create.nextCard, Create.prevCard, hlen, h] <;> decide

/-- C10 (witness): the inverse laws at index `2`. -/
theorem card_navigation_inverse_witness :
    (0 ≤ (Create.nextCard ⟨2, 1⟩).currentCardIndex ∧
      (Create.nextCard ⟨2, 1⟩).currentCardIndex < (Create.previewCards.length : Int)) ∧
    (0 ≤ (Create.prevCard ⟨2, 1⟩).currentCardIndex ∧
      (Create.prevCard ⟨2, 1⟩).currentCardIndex < (Create.previewCards.length : Int)) ∧
    (Create.prevCard (Create.nextCard ⟨2, 1⟩)).currentCardIndex = (2 : Int) ∧
    (Create.nextCard (Create.prevCard ⟨2, 1⟩)).currentCardIndex = (2 : Int) :=
  card_navigation_inverse ⟨2, 1⟩ (by decide) (by decide)

end Pollyn
